import Mathlib

/-!
Verification of the batch resume-scoring pipeline
(`src/services/async_pipeline.py` and its caller `src/main.py`).

The Python code is shallowly embedded: strings are Lean `String`s, Python
floats are modelled as exact rationals `ℚ` (the spec states all formulas in
real arithmetic), Python dicts holding either score fields or error fields
become a sum type, and the MD5 digest (an external standard-library
primitive, not code of this repository) is an ambient parameter
`md5hex8 : String → ℕ` standing for `int(hashlib.md5(t.encode()).hexdigest()[:8], 16)`.
-/

namespace AsyncPipeline

/-- Python `needle in hay` on strings (character lists): `needle` occurs as a
contiguous substring of `hay`.  `containsSub n h` checks `n.isPrefixOf` at
every suffix of `h`; the empty needle is contained in every haystack. -/
def containsSub (needle : List Char) : List Char → Bool
  | [] => needle.isEmpty
  | c :: t => needle.isPrefixOf (c :: t) || containsSub needle t

/-- Python `needle in hay` for `String`s. -/
def pyIn (needle hay : String) : Bool :=
  containsSub needle.data hay.data

/-- Python `s.lower()`, modelled as per-character lowercasing (ASCII
`A`-`Z`, which is what `Char.toLower` implements). -/
def pyLower (s : String) : String :=
  ⟨s.data.map Char.toLower⟩

/-- Split a character list at every character satisfying `p`, keeping the
(possibly empty) pieces in between. -/
def splitChars (p : Char → Bool) (cs : List Char) : List (List Char) :=
  cs.foldr
    (fun c acc =>
      if p c then [] :: acc
      else
        match acc with
        | [] => [[c]]
        | t :: ts => (c :: t) :: ts)
    [[]]

/-- Python `s.split()` followed by the `len(w) > 3` filter from
`_fallback_score`: whitespace-delimited tokens of length > 3.  Splitting on
whitespace runs discards empty tokens; splitting at every whitespace
character instead produces empty pieces which the length filter removes, so
a single filter over the per-character split is equivalent. -/
def pyTokens (s : String) : List String :=
  ((splitChars Char.isWhitespace s.data).map (fun cs => String.mk cs)).filter
    (fun w => 3 < w.length)

/-- Python `round` ties-to-even on an exact rational. -/
def pyRoundHalfEven (q : ℚ) : ℤ :=
  if q - ⌊q⌋ < 1/2 then ⌊q⌋
  else if 1/2 < q - ⌊q⌋ then ⌊q⌋ + 1
  else if ⌊q⌋ % 2 = 0 then ⌊q⌋ else ⌊q⌋ + 1

/-- Python `round(q, 2)`. -/
def pyRound2 (q : ℚ) : ℚ :=
  (pyRoundHalfEven (q * 100) : ℚ) / 100

/-- The `explanation` dict built by `_fallback_score`. -/
structure Explanation where
  strengths : List String
  gaps : List String
  recommendation : String
  deriving DecidableEq, Repr

/-- The score dict returned by `_fallback_score` (async_pipeline.py lines 53-65). -/
structure ScoreBreakdown where
  overall_score : ℚ
  skills_score : ℚ
  semantic_score : ℚ
  found_skills : List String
  matched_skills : List String
  missing_skills : List String
  explanation : Explanation
  deriving DecidableEq, Repr

/-- `skill.lower() in resume_lower` (line 34): the case-insensitive substring
test of one required skill against the resume text. -/
def skillMatches (resume_text skill : String) : Bool :=
  pyIn (pyLower skill) (pyLower resume_text)

/-- `matched_count = sum(1 for skill in required_skills if skill.lower() in resume_lower)`
(line 34). -/
def matched_count (resume_text : String) (required_skills : List String) : ℕ :=
  (required_skills.filter (fun skill => skillMatches resume_text skill)).length

/-- `skills_score = min(100, (matched_count / max(1, len(required_skills))) * 100 * 1.2)`
(line 35). -/
def skills_score (resume_text : String) (required_skills : List String) : ℚ :=
  min 100 (((matched_count resume_text required_skills : ℚ) /
    ((max 1 required_skills.length : ℕ) : ℚ)) * 100 * 1.2)

/-- `set(w for w in text.lower().split() if len(w) > 3)` (lines 38-39). -/
def wordsOf (text : String) : Finset String :=
  (pyTokens (pyLower text)).toFinset

/-- `overlap = len(resume_words & jd_words)` (line 40). -/
def overlap (resume_text job_description : String) : ℕ :=
  (wordsOf resume_text ∩ wordsOf job_description).card

/-- `semantic_score = min(100, (overlap / max(1, len(jd_words))) * 100)` (line 41). -/
def semantic_score (resume_text job_description : String) : ℚ :=
  min 100 (((overlap resume_text job_description : ℚ) /
    ((max 1 (wordsOf job_description).card : ℕ) : ℚ)) * 100)

/-- `length_bonus = min(20, len(resume_text) / 500)` (line 44). -/
def length_bonus (resume_text : String) : ℚ :=
  min 20 ((resume_text.length : ℚ) / 500)

/-- `_score_from_components` (lines 21-22) with the default weights (0.6, 0.4). -/
def _score_from_components (skills semantic : ℚ) : ℚ :=
  skills * 0.6 + semantic * 0.4

/-- `variance = ((seed % 20) - 10) / 100` (line 50), where
`seed = int(hashlib.md5(resume_text.encode()).hexdigest()[:8], 16)` (line 27)
is supplied by the ambient digest function `md5hex8`. -/
def variance (md5hex8 : String → ℕ) (resume_text : String) : ℚ :=
  (((md5hex8 resume_text % 20 : ℕ) : ℚ) - 10) / 100

/-- The clamped, pre-rounding overall score (lines 46-51):
`overall = max(0, min(100, min(100, skills*0.6 + semantic*0.4 + length_bonus) * (1 + variance)))`. -/
def overallOf (md5hex8 : String → ℕ)
    (resume_text job_description : String) (required_skills : List String) : ℚ :=
  max 0 (min 100
    ((min 100 (_score_from_components (skills_score resume_text required_skills)
        (semantic_score resume_text job_description) + length_bonus resume_text)) *
      (1 + variance md5hex8 resume_text)))

/-- The `recommendation` string (line 63), chosen from the clamped overall
score before rounding, exactly as the source expression reads `overall`. -/
def recommendationOf (overall : ℚ) : String :=
  if 80 ≤ overall then "Highly Recommended"
  else if 60 ≤ overall then "Recommended"
  else if 40 ≤ overall then "Maybe"
  else "Not Recommended"

/-- `_fallback_score` (async_pipeline.py lines 24-65). -/
def _fallback_score (md5hex8 : String → ℕ)
    (resume_text job_description : String) (required_skills : List String) :
    ScoreBreakdown :=
  { overall_score := pyRound2 (overallOf md5hex8 resume_text job_description required_skills)
    skills_score := pyRound2 (skills_score resume_text required_skills)
    semantic_score := pyRound2 (semantic_score resume_text job_description)
    found_skills := required_skills.filter (fun s => skillMatches resume_text s)
    matched_skills := required_skills.filter (fun s => skillMatches resume_text s)
    missing_skills := required_skills.filter (fun s => ! skillMatches resume_text s)
    explanation :=
      { strengths := ["Matched " ++ toString (matched_count resume_text required_skills) ++
          "/" ++ toString required_skills.length ++ " required skills"]
        gaps := required_skills.filter (fun s => ! skillMatches resume_text s)
        recommendation :=
          recommendationOf (overallOf md5hex8 resume_text job_description required_skills) } }

/-- One input item of the batch entry point, after `score_candidates_batch`
(main.py lines 169-176) normalises each request object to exactly these four
keys; `fileName` is the opaque passthrough metadata field. -/
structure ScoringItem where
  resume_text : String
  job_description : String
  required_skills : List String
  fileName : String
  deriving DecidableEq, Repr

/-- Outcome of processing one item: either the score dict or the error dict
`{"error": True, "message": ...}` built by `_process_single_sync` (line 80).
A Python result dict carries either the score keys or the error keys, never
both, so the embedding is a sum. -/
inductive Outcome where
  | ok : ScoreBreakdown → Outcome
  | err : String → Outcome
  deriving DecidableEq, Repr

/-- `r` is an error record's outcome. -/
def Outcome.isErr : Outcome → Bool
  | .ok _ => false
  | .err _ => true

/-- `_process_single_sync` (lines 67-80): runs the scorer inside
`try/except`, converting a raised exception into the error dict.  The
possibly-raising body is a parameter `scorer`; the real body is
`fallbackScorer` below, which never fails. -/
def _process_single_sync
    (scorer : String → String → List String → Except String ScoreBreakdown)
    (resume_text job_description : String) (required_skills : List String) :
    Outcome :=
  match scorer resume_text job_description required_skills with
  | .ok r => .ok r
  | .error e => .err e

/-- The actual body of `_process_single_sync` (line 73): a direct call of
`_fallback_score`, which is pure and total, hence never raises. -/
def fallbackScorer (md5hex8 : String → ℕ) :
    String → String → List String → Except String ScoreBreakdown :=
  fun r j s => .ok (_fallback_score md5hex8 r j s)

/-- One merged output record: `record = {**src}; record.update(res)`
(lines 96-97).  The score/error keys of `res` are disjoint from the four item
keys of `src`, so the merge keeps every item field unchanged next to the
outcome. -/
structure BatchRecord where
  item : ScoringItem
  outcome : Outcome
  deriving DecidableEq, Repr

/-- `sort_key` (lines 101-102): `r.get("overall_score", -1)` — an error
record has no `overall_score` key and defaults to -1. -/
def sort_key (r : BatchRecord) : ℚ :=
  match r.outcome with
  | .ok b => b.overall_score
  | .err _ => -1

/-- The comparison `sorted(out, key=sort_key, reverse=True)` performs:
a stable sort placing `a` before `b` when `sort_key a ≥ sort_key b`. -/
def descLE (a b : BatchRecord) : Bool :=
  sort_key b ≤ sort_key a

/-- The outcome `_process_single_sync` produces for one normalised item. -/
def itemOutcome
    (scorer : String → String → List String → Except String ScoreBreakdown)
    (it : ScoringItem) : Outcome :=
  _process_single_sync scorer it.resume_text it.job_description it.required_skills

/-- The merged, unsorted record list (lines 94-98): one record per input
item, in input order. -/
def mergedRecords
    (scorer : String → String → List String → Except String ScoreBreakdown)
    (items : List ScoringItem) : List BatchRecord :=
  items.map (fun it => { item := it, outcome := itemOutcome scorer it })

/-- A scorer whose successful results carry a nonnegative `overall_score`;
true of the real scorer, whose results are clamped to `[0, 100]`. -/
def OkNonneg
    (scorer : String → String → List String → Except String ScoreBreakdown) :
    Prop :=
  ∀ r j s b, scorer r j s = Except.ok b → 0 ≤ b.overall_score

/-- `process_bulk_async` (lines 82-105): score every item (the
`asyncio.gather` fan-in returns results positionally, and no unit shares
state, so the concurrent map is a map), merge each item with its outcome,
then stable-sort by `overall_score` descending. -/
def process_bulk_async
    (scorer : String → String → List String → Except String ScoreBreakdown)
    (items : List ScoringItem) : List BatchRecord :=
  (mergedRecords scorer items).mergeSort descLE

/-- A stub breakdown carrying a given overall score, used to exercise the
aggregator's ordering on explicit scores (spec section 8, batch ordering). -/
def constBreakdown (q : ℚ) : ScoreBreakdown :=
  { overall_score := q, skills_score := 0, semantic_score := 0,
    found_skills := [], matched_skills := [], missing_skills := [],
    explanation := { strengths := [], gaps := [], recommendation := "" } }

/-- A test double assigning an explicit overall score of five points per
required skill, used to realise the spec's batch-ordering example. -/
def exScorer : String → String → List String → Except String ScoreBreakdown :=
  fun _ _ s => .ok (constBreakdown ((s.length : ℚ) * 5))

/-- The batch of the spec's ordering example: input scores [55, 90, 90, 10],
the two 90-records A before B (the skill lists have lengths 11, 18, 18, 2,
scored at five points per skill). -/
def exItems : List ScoringItem :=
  [⟨"", "", List.replicate 11 "s", "s55"⟩, ⟨"", "", List.replicate 18 "s", "A"⟩,
    ⟨"", "", List.replicate 18 "s", "B"⟩, ⟨"", "", List.replicate 2 "s", "D10"⟩]

/-- A test double that raises on the designated resume text `"bad"` and
otherwise scores with the real engine: the fault injection of the spec's
error-isolation test. -/
def failingScorer : String → String → List String → Except String ScoreBreakdown :=
  fun r j s => if r = "bad" then .error "boom" else fallbackScorer (fun _ => 0) r j s

/-- A two-item batch whose second item triggers the injected failure. -/
def witItems : List ScoringItem :=
  [⟨"good", "", [], "g"⟩, ⟨"bad", "", [], "b"⟩]

/-! ### Bridging lemmas: the Python substring membership test -/

theorem containsSub_iff (n : List Char) :
    ∀ h : List Char, containsSub n h = true ↔ n <:+: h
  | [] => by
    simp [containsSub, List.isEmpty_iff, List.infix_nil]
  | c :: t => by
    simp only [containsSub, Bool.or_eq_true, List.isPrefixOf_iff_prefix,
      containsSub_iff n t, List.infix_cons_iff]

theorem pyIn_iff (n h : String) : pyIn n h = true ↔ n.data <:+: h.data :=
  containsSub_iff n.data h.data

theorem skillMatches_iff (r s : String) :
    skillMatches r s = true ↔ (pyLower s).data <:+: (pyLower r).data :=
  pyIn_iff (pyLower s) (pyLower r)

theorem skillMatches_eq_decide (r s : String) :
    skillMatches r s = decide ((pyLower s).data <:+: (pyLower r).data) := by
  by_cases hd : (pyLower s).data <:+: (pyLower r).data
  · simp only [hd, decide_eq_true_eq, decide_True]
    exact (skillMatches_iff r s).mpr hd
  · simp only [hd, decide_False]
    rcases hb : skillMatches r s with _ | _
    · rfl
    · exact absurd ((skillMatches_iff r s).mp hb) hd

theorem pyIn_nil_left (h : String) : pyIn "" h = true := by
  show containsSub [] h.data = true
  cases h.data <;> simp [containsSub]

/-! ### Bridging lemmas: rounding -/

theorem floor_le_pyRoundHalfEven (q : ℚ) : ⌊q⌋ ≤ pyRoundHalfEven q := by
  unfold pyRoundHalfEven
  split_ifs <;> omega

theorem pyRoundHalfEven_le_ceil (q : ℚ) : pyRoundHalfEven q ≤ ⌈q⌉ := by
  unfold pyRoundHalfEven
  split_ifs with h1 h2 h3
  · exact Int.floor_le_ceil q
  all_goals
    push_neg at h1
  all_goals
    have hq : (↑⌊q⌋ : ℚ) < q := by linarith
  all_goals
    have := Int.lt_ceil.mpr hq
  all_goals
    omega

theorem pyRound2_nonneg (q : ℚ) (hq : 0 ≤ q) : 0 ≤ pyRound2 q := by
  have h0 : (0 : ℤ) ≤ ⌊q * 100⌋ := Int.floor_nonneg.mpr (by positivity)
  have h1 : (0 : ℤ) ≤ pyRoundHalfEven (q * 100) :=
    le_trans h0 (floor_le_pyRoundHalfEven _)
  unfold pyRound2
  positivity

theorem pyRound2_le_100 (q : ℚ) (hq : q ≤ 100) : pyRound2 q ≤ 100 := by
  have h1 : pyRoundHalfEven (q * 100) ≤ 10000 :=
    le_trans (pyRoundHalfEven_le_ceil _)
      (by exact_mod_cast Int.ceil_le.mpr (by push_cast; nlinarith))
  unfold pyRound2
  have : (pyRoundHalfEven (q * 100) : ℚ) ≤ 10000 := by exact_mod_cast h1
  linarith

theorem pyRound2_intCast (n : ℤ) : pyRound2 (n : ℚ) = n := by
  unfold pyRound2 pyRoundHalfEven
  have h1 : ((n : ℚ) * 100) = ((100 * n : ℤ) : ℚ) := by push_cast; ring
  rw [h1, Int.floor_intCast]
  rw [if_pos (by norm_num)]
  push_cast
  ring

/-! ### Bounds of the raw score components -/

theorem skills_score_nonneg (r : String) (s : List String) :
    0 ≤ skills_score r s := by
  unfold skills_score
  have : (0 : ℚ) ≤ ((matched_count r s : ℚ) /
      ((max 1 s.length : ℕ) : ℚ)) * 100 * 1.2 := by positivity
  exact le_min (by norm_num) this

theorem skills_score_le_100 (r : String) (s : List String) :
    skills_score r s ≤ 100 :=
  min_le_left _ _

theorem semantic_score_nonneg (r j : String) : 0 ≤ semantic_score r j := by
  unfold semantic_score
  have : (0 : ℚ) ≤ ((overlap r j : ℚ) /
      ((max 1 (wordsOf j).card : ℕ) : ℚ)) * 100 := by positivity
  exact le_min (by norm_num) this

theorem semantic_score_le_100 (r j : String) : semantic_score r j ≤ 100 :=
  min_le_left _ _

theorem overallOf_nonneg (md5hex8 : String → ℕ) (r j : String)
    (s : List String) : 0 ≤ overallOf md5hex8 r j s :=
  le_max_left 0 _

theorem overallOf_le_100 (md5hex8 : String → ℕ) (r j : String)
    (s : List String) : overallOf md5hex8 r j s ≤ 100 :=
  max_le (by norm_num) (min_le_left _ _)

theorem fallback_overall_nonneg (md5hex8 : String → ℕ) (r j : String)
    (s : List String) : 0 ≤ (_fallback_score md5hex8 r j s).overall_score :=
  pyRound2_nonneg _ (overallOf_nonneg md5hex8 r j s)

theorem fallbackScorer_okNonneg (md5hex8 : String → ℕ) :
    OkNonneg (fallbackScorer md5hex8) := by
  intro r j s b hb
  have : b = _fallback_score md5hex8 r j s := by
    simpa [fallbackScorer] using hb.symm
  rw [this]
  exact fallback_overall_nonneg md5hex8 r j s

/-! ### The aggregator's comparison relation -/

theorem descLE_trans (a b c : BatchRecord) :
    descLE a b → descLE b c → descLE a c := by
  simp only [descLE, decide_eq_true_eq]
  exact fun hab hbc => le_trans hbc hab

theorem descLE_total (a b : BatchRecord) : descLE a b || descLE b a := by
  simp only [descLE, Bool.or_eq_true, decide_eq_true_eq]
  exact le_total _ _

theorem sort_key_nonneg_of_ok
    (scorer : String → String → List String → Except String ScoreBreakdown)
    (hsc : OkNonneg scorer) (items : List ScoringItem) (rec : BatchRecord)
    (hmem : rec ∈ mergedRecords scorer items)
    (hok : rec.outcome.isErr = false) : 0 ≤ sort_key rec := by
  obtain ⟨it, -, rfl⟩ := List.mem_map.mp hmem
  rcases hs : scorer it.resume_text it.job_description it.required_skills with e | b
  · have : itemOutcome scorer it = Outcome.err e := by
      simp [itemOutcome, _process_single_sync, hs]
    simp [this, Outcome.isErr] at hok
  · have h2 : itemOutcome scorer it = Outcome.ok b := by
      simp [itemOutcome, _process_single_sync, hs]
    simp only [sort_key, h2]
    exact hsc _ _ _ _ hs

theorem sort_key_err (rec : BatchRecord) (h : rec.outcome.isErr = true) :
    sort_key rec = -1 := by
  unfold sort_key
  rcases ho : rec.outcome with b | m
  · simp [ho, Outcome.isErr] at h
  · rfl

/-- In a list where the predicate holds of everything after any element it
holds of, a count of exactly one means: the last element satisfies it and
nothing else does. -/
theorem pairwise_count_one_split {α : Type} (p : α → Bool) :
    ∀ l : List α, l.Pairwise (fun a b => p a = true → p b = true) →
      l.countP p = 1 →
      ∃ l₀ e, l = l₀ ++ [e] ∧ p e = true ∧ ∀ r ∈ l₀, p r = false
  | [], _, hc => by simp [List.countP_nil] at hc
  | a :: t, hp, hc => by
    rw [List.pairwise_cons] at hp
    rw [List.countP_cons] at hc
    by_cases ha : p a = true
    · have hall : ∀ b ∈ t, p b = true := fun b hb => hp.1 b hb ha
      have hlen : t.countP p = t.length := List.countP_eq_length.mpr hall
      have hc1 : t.countP p + 1 = 1 := by simpa [ha] using hc
      have ht : t = [] := List.length_eq_zero.mp (by omega)
      subst ht
      exact ⟨[], a, rfl, ha, by simp⟩
    · have ht : t.countP p = 1 := by simpa [ha] using hc
      obtain ⟨l₀, e, rfl, he, hl⟩ := pairwise_count_one_split p t hp.2 ht
      refine ⟨a :: l₀, e, rfl, he, ?_⟩
      intro r hr
      rcases List.mem_cons.mp hr with rfl | hr
      · simpa using ha
      · exact hl r hr

/-! ### The claims -/

/-- C1: for every resumeText, jobDescription and requiredSkills, the Scoring
Engine returns skillsScore = min(100, (matchedCount / max(1, |requiredSkills|)) * 100 * 1.2)
where matchedCount counts the entries of requiredSkills whose lowercase form
occurs as a substring of the lowercased resumeText, and
semanticScore = min(100, (overlap / max(1, |jdWords|)) * 100) over the sets of
whitespace-delimited tokens of length > 3 of the lowercased texts (both
scores then rounded to 2 decimals per step 8 of the algorithm); in
particular requiredSkills = [] yields skillsScore = 0 and
jobDescription = "" yields semanticScore = 0. -/
theorem fallback_skills_semantic_formulas (md5hex8 : String → ℕ)
    (resumeText jobDescription : String) (requiredSkills : List String) :
    (_fallback_score md5hex8 resumeText jobDescription requiredSkills).skills_score
      = pyRound2 (min 100
          (((requiredSkills.countP
              (fun s => decide ((pyLower s).data <:+: (pyLower resumeText).data)) : ℚ) /
            ((max 1 requiredSkills.length : ℕ) : ℚ)) * 100 * 1.2)) ∧
    (_fallback_score md5hex8 resumeText jobDescription requiredSkills).semantic_score
      = pyRound2 (min 100
          (((((pyTokens (pyLower resumeText)).toFinset ∩
              (pyTokens (pyLower jobDescription)).toFinset).card : ℚ) /
            ((max 1 (pyTokens (pyLower jobDescription)).toFinset.card : ℕ) : ℚ)) * 100)) ∧
    (_fallback_score md5hex8 resumeText jobDescription []).skills_score = 0 ∧
    (_fallback_score md5hex8 resumeText "" requiredSkills).semantic_score = 0 := by
  refine ⟨?_, ?_, ?_, ?_⟩
  · show pyRound2 (skills_score resumeText requiredSkills) = _
    unfold skills_score matched_count
    rw [← List.countP_eq_length_filter]
    simp only [skillMatches_eq_decide]
  · show pyRound2 (semantic_score resumeText jobDescription) = _
    unfold semantic_score overlap wordsOf
    rfl
  · show pyRound2 (skills_score resumeText []) = 0
    have h0 : skills_score resumeText [] = 0 := by
      unfold skills_score matched_count
      norm_num
    rw [h0]
    simpa using pyRound2_intCast 0
  · show pyRound2 (semantic_score resumeText "") = 0
    have hw : wordsOf "" = ∅ := by rfl
    have h0 : semantic_score resumeText "" = 0 := by
      unfold semantic_score overlap
      rw [hw]
      norm_num
    rw [h0]
    simpa using pyRound2_intCast 0

/-- C2: for every input, lengthBonus = min(20, len(resumeText)/500),
overall = min(100, skillsScore*0.6 + semanticScore*0.4 + lengthBonus), then
for the seed derived from hashing resumeText,
variance = ((seed mod 20) - 10)/100 lies in -0.10..+0.10, then
overall = clamp(overall*(1+variance), 0, 100), and all three returned
scores are rounded to 2 decimal places. -/
theorem fallback_overall_formula (md5hex8 : String → ℕ)
    (resumeText jobDescription : String) (requiredSkills : List String) :
    (_fallback_score md5hex8 resumeText jobDescription requiredSkills).overall_score
      = pyRound2 (max 0 (min 100
          ((min 100 (skills_score resumeText requiredSkills * 0.6 +
              semantic_score resumeText jobDescription * 0.4 +
              min 20 ((resumeText.length : ℚ) / 500))) *
            (1 + (((md5hex8 resumeText % 20 : ℕ) : ℚ) - 10) / 100)))) ∧
    -(1/10) ≤ variance md5hex8 resumeText ∧
    variance md5hex8 resumeText ≤ 1/10 ∧
    (_fallback_score md5hex8 resumeText jobDescription requiredSkills).skills_score
      = pyRound2 (skills_score resumeText requiredSkills) ∧
    (_fallback_score md5hex8 resumeText jobDescription requiredSkills).semantic_score
      = pyRound2 (semantic_score resumeText jobDescription) := by
  have h19 : md5hex8 resumeText % 20 ≤ 19 :=
    Nat.lt_succ_iff.mp (Nat.mod_lt _ (by norm_num))
  have h19q : ((md5hex8 resumeText % 20 : ℕ) : ℚ) ≤ 19 := by exact_mod_cast h19
  have h0q : (0 : ℚ) ≤ ((md5hex8 resumeText % 20 : ℕ) : ℚ) := Nat.cast_nonneg _
  refine ⟨rfl, ?_, ?_, rfl, rfl⟩
  · unfold variance
    linarith
  · unfold variance
    linarith

/-- C6: matchedSkills and missingSkills partition requiredSkills: membership
on either side is decided by the case-insensitive substring test of the
skill against the resume text, the two lists are disjoint as sets, and their
union is requiredSkills as a set — every skill lands in exactly one side. -/
theorem skills_partition (md5hex8 : String → ℕ)
    (resumeText jobDescription : String) (requiredSkills : List String) :
    (∀ s, s ∈ (_fallback_score md5hex8 resumeText jobDescription
          requiredSkills).matched_skills
        ↔ s ∈ requiredSkills ∧ (pyLower s).data <:+: (pyLower resumeText).data) ∧
    (∀ s, s ∈ (_fallback_score md5hex8 resumeText jobDescription
          requiredSkills).missing_skills
        ↔ s ∈ requiredSkills ∧ ¬ (pyLower s).data <:+: (pyLower resumeText).data) ∧
    (∀ s, s ∈ requiredSkills
        ↔ (s ∈ (_fallback_score md5hex8 resumeText jobDescription
              requiredSkills).matched_skills ∨
           s ∈ (_fallback_score md5hex8 resumeText jobDescription
              requiredSkills).missing_skills)) ∧
    (∀ s, ¬ (s ∈ (_fallback_score md5hex8 resumeText jobDescription
          requiredSkills).matched_skills ∧
        s ∈ (_fallback_score md5hex8 resumeText jobDescription
          requiredSkills).missing_skills)) := by
  have hm : ∀ s, s ∈ (_fallback_score md5hex8 resumeText jobDescription
        requiredSkills).matched_skills
      ↔ s ∈ requiredSkills ∧ (pyLower s).data <:+: (pyLower resumeText).data := by
    intro s
    show s ∈ requiredSkills.filter (fun x => skillMatches resumeText x) ↔ _
    rw [List.mem_filter, skillMatches_iff]
  have hn : ∀ s, s ∈ (_fallback_score md5hex8 resumeText jobDescription
        requiredSkills).missing_skills
      ↔ s ∈ requiredSkills ∧ ¬ (pyLower s).data <:+: (pyLower resumeText).data := by
    intro s
    show s ∈ requiredSkills.filter (fun x => ! skillMatches resumeText x) ↔ _
    rw [List.mem_filter]
    constructor
    · rintro ⟨hs, hb⟩
      refine ⟨hs, fun hinf => ?_⟩
      rw [Bool.not_eq_true', ← Bool.not_eq_true] at hb
      exact hb ((skillMatches_iff resumeText s).mpr hinf)
    · rintro ⟨hs, hni⟩
      refine ⟨hs, ?_⟩
      rw [Bool.not_eq_true', ← Bool.not_eq_true]
      exact fun hb => hni ((skillMatches_iff resumeText s).mp hb)
  refine ⟨hm, hn, ?_, ?_⟩
  · intro s
    constructor
    · intro hs
      by_cases hinf : (pyLower s).data <:+: (pyLower resumeText).data
      · exact Or.inl ((hm s).mpr ⟨hs, hinf⟩)
      · exact Or.inr ((hn s).mpr ⟨hs, hinf⟩)
    · rintro (hs | hs)
      · exact ((hm s).mp hs).1
      · exact ((hn s).mp hs).1
  · rintro s ⟨hs1, hs2⟩
    exact ((hn s).mp hs2).2 ((hm s).mp hs1).2

/-- C7: for every input, with no precondition on the texts or the skills
list, the three returned scores all lie in [0, 100]. -/
theorem score_bounds (md5hex8 : String → ℕ)
    (resumeText jobDescription : String) (requiredSkills : List String) :
    0 ≤ (_fallback_score md5hex8 resumeText jobDescription
        requiredSkills).overall_score ∧
    (_fallback_score md5hex8 resumeText jobDescription
        requiredSkills).overall_score ≤ 100 ∧
    0 ≤ (_fallback_score md5hex8 resumeText jobDescription
        requiredSkills).skills_score ∧
    (_fallback_score md5hex8 resumeText jobDescription
        requiredSkills).skills_score ≤ 100 ∧
    0 ≤ (_fallback_score md5hex8 resumeText jobDescription
        requiredSkills).semantic_score ∧
    (_fallback_score md5hex8 resumeText jobDescription
        requiredSkills).semantic_score ≤ 100 :=
  ⟨pyRound2_nonneg _ (overallOf_nonneg md5hex8 resumeText jobDescription requiredSkills),
   pyRound2_le_100 _ (overallOf_le_100 md5hex8 resumeText jobDescription requiredSkills),
   pyRound2_nonneg _ (skills_score_nonneg resumeText requiredSkills),
   pyRound2_le_100 _ (skills_score_le_100 resumeText requiredSkills),
   pyRound2_nonneg _ (semantic_score_nonneg resumeText jobDescription),
   pyRound2_le_100 _ (semantic_score_le_100 resumeText jobDescription)⟩

theorem recommendationOf_hr (ov : ℚ) :
    recommendationOf ov = "Highly Recommended" ↔ 80 ≤ ov := by
  unfold recommendationOf
  split_ifs with h1 h2 h3
  · exact ⟨fun _ => h1, fun _ => rfl⟩
  · exact ⟨fun hx => absurd hx (by decide), fun hx => absurd hx h1⟩
  · exact ⟨fun hx => absurd hx (by decide), fun hx => absurd hx h1⟩
  · exact ⟨fun hx => absurd hx (by decide), fun hx => absurd hx h1⟩

theorem recommendationOf_rec (ov : ℚ) :
    recommendationOf ov = "Recommended" ↔ 60 ≤ ov ∧ ov < 80 := by
  unfold recommendationOf
  split_ifs with h1 h2 h3
  · exact ⟨fun hx => absurd hx (by decide), fun hx => absurd h1 (not_le.mpr hx.2)⟩
  · exact ⟨fun _ => ⟨h2, not_le.mp h1⟩, fun _ => rfl⟩
  · exact ⟨fun hx => absurd hx (by decide), fun hx => absurd hx.1 h2⟩
  · exact ⟨fun hx => absurd hx (by decide), fun hx => absurd hx.1 h2⟩

theorem recommendationOf_maybe (ov : ℚ) :
    recommendationOf ov = "Maybe" ↔ 40 ≤ ov ∧ ov < 60 := by
  unfold recommendationOf
  split_ifs with h1 h2 h3
  · exact ⟨fun hx => absurd hx (by decide),
      fun hx => absurd (h1.trans_lt hx.2) (by norm_num)⟩
  · exact ⟨fun hx => absurd hx (by decide),
      fun hx => absurd (h2.trans_lt hx.2) (by norm_num)⟩
  · exact ⟨fun _ => ⟨h3, not_le.mp h2⟩, fun _ => rfl⟩
  · exact ⟨fun hx => absurd hx (by decide), fun hx => absurd hx.1 h3⟩

theorem recommendationOf_not (ov : ℚ) :
    recommendationOf ov = "Not Recommended" ↔ ov < 40 := by
  unfold recommendationOf
  split_ifs with h1 h2 h3
  · exact ⟨fun hx => absurd hx (by decide),
      fun hx => absurd (h1.trans_lt hx) (by norm_num)⟩
  · exact ⟨fun hx => absurd hx (by decide),
      fun hx => absurd (h2.trans_lt hx) (by norm_num)⟩
  · exact ⟨fun hx => absurd hx (by decide),
      fun hx => absurd (h3.trans_lt hx) (by norm_num)⟩
  · exact ⟨fun _ => not_le.mp h3, fun _ => rfl⟩

/-- C9: the explanation equals the reference definition: the recommendation
tier is decided by thresholds 80 / 60 / 40 on the overall score (the
clamped value the source expression reads), strengths is exactly the one
entry "Matched matchedCount/total required skills", and gaps lists the
required skills whose lowercase form is not a substring of the lowercased
resume text, in input order. -/
theorem explanation_correct (md5hex8 : String → ℕ)
    (resumeText jobDescription : String) (requiredSkills : List String) :
    ((_fallback_score md5hex8 resumeText jobDescription
          requiredSkills).explanation.recommendation = "Highly Recommended"
        ↔ 80 ≤ overallOf md5hex8 resumeText jobDescription requiredSkills) ∧
    ((_fallback_score md5hex8 resumeText jobDescription
          requiredSkills).explanation.recommendation = "Recommended"
        ↔ 60 ≤ overallOf md5hex8 resumeText jobDescription requiredSkills ∧
          overallOf md5hex8 resumeText jobDescription requiredSkills < 80) ∧
    ((_fallback_score md5hex8 resumeText jobDescription
          requiredSkills).explanation.recommendation = "Maybe"
        ↔ 40 ≤ overallOf md5hex8 resumeText jobDescription requiredSkills ∧
          overallOf md5hex8 resumeText jobDescription requiredSkills < 60) ∧
    ((_fallback_score md5hex8 resumeText jobDescription
          requiredSkills).explanation.recommendation = "Not Recommended"
        ↔ overallOf md5hex8 resumeText jobDescription requiredSkills < 40) ∧
    (_fallback_score md5hex8 resumeText jobDescription
        requiredSkills).explanation.strengths
      = ["Matched " ++
          toString (requiredSkills.countP
            (fun s => decide ((pyLower s).data <:+: (pyLower resumeText).data))) ++
          "/" ++ toString requiredSkills.length ++ " required skills"] ∧
    (_fallback_score md5hex8 resumeText jobDescription
        requiredSkills).explanation.gaps
      = requiredSkills.filter
          (fun s => ! decide ((pyLower s).data <:+: (pyLower resumeText).data)) := by
  refine ⟨recommendationOf_hr _, recommendationOf_rec _, recommendationOf_maybe _,
    recommendationOf_not _, ?_, ?_⟩
  · show ["Matched " ++ toString (matched_count resumeText requiredSkills) ++
        "/" ++ toString requiredSkills.length ++ " required skills"] = _
    unfold matched_count
    rw [← List.countP_eq_length_filter]
    simp only [skillMatches_eq_decide]
  · show requiredSkills.filter (fun s => ! skillMatches resumeText s) = _
    simp only [skillMatches_eq_decide]

/-- C10 (implicit): an empty string in requiredSkills is always classified
as matched, because the empty string is a substring of every text; in
particular resumeText = "" with requiredSkills = [""] yields
matchedCount ≥ 1 and a positive skillsScore instead of zero scores. -/
theorem empty_skill_always_matched (md5hex8 : String → ℕ)
    (resumeText jobDescription : String) (requiredSkills : List String)
    (h : "" ∈ requiredSkills) :
    "" ∈ (_fallback_score md5hex8 resumeText jobDescription
        requiredSkills).matched_skills ∧
    1 ≤ matched_count "" [""] ∧
    0 < (_fallback_score md5hex8 "" "" [""]).skills_score := by
  refine ⟨?_, by decide, ?_⟩
  · show "" ∈ requiredSkills.filter (fun s => skillMatches resumeText s)
    rw [List.mem_filter]
    refine ⟨h, ?_⟩
    show pyIn (pyLower "") (pyLower resumeText) = true
    exact pyIn_nil_left _
  · show 0 < pyRound2 (skills_score "" [""])
    have hm : matched_count "" [""] = 1 := by decide
    have h1 : skills_score "" [""] = 100 := by
      unfold skills_score
      rw [hm]
      norm_num [min_def]
    rw [h1]
    have h2 : pyRound2 ((100 : ℤ) : ℚ) = ((100 : ℤ) : ℚ) := pyRound2_intCast 100
    norm_num at h2 ⊢
    rw [h2]
    norm_num

theorem out_sorted
    (scorer : String → String → List String → Except String ScoreBreakdown)
    (items : List ScoringItem) :
    (process_bulk_async scorer items).Pairwise
      (fun a b => sort_key b ≤ sort_key a) := by
  have hs := List.sorted_mergeSort descLE_trans descLE_total
    (mergedRecords scorer items)
  exact hs.imp (fun {a b} h => by simpa [descLE] using h)

theorem out_errs_last
    (scorer : String → String → List String → Except String ScoreBreakdown)
    (items : List ScoringItem) (hsc : OkNonneg scorer) :
    (process_bulk_async scorer items).Pairwise
      (fun a b => a.outcome.isErr = true → b.outcome.isErr = true) := by
  refine (out_sorted scorer items).imp_of_mem ?_
  intro a b hma hmb hle ha
  have hmb2 : b ∈ mergedRecords scorer items := List.mem_mergeSort.mp hmb
  rcases hb : b.outcome.isErr with _ | _
  · have hka : sort_key a = -1 := sort_key_err a ha
    have hkb : 0 ≤ sort_key b := sort_key_nonneg_of_ok scorer hsc items b hmb2 hb
    rw [hka] at hle
    linarith
  · rfl

theorem exScorer_okNonneg : OkNonneg exScorer := by
  intro r j s b h
  unfold exScorer at h
  cases h
  show 0 ≤ (constBreakdown _).overall_score
  unfold constBreakdown
  positivity

theorem failingScorer_okNonneg : OkNonneg failingScorer := by
  intro r j s b h
  unfold failingScorer at h
  split at h
  · exact Except.noConfusion h
  · exact fallbackScorer_okNonneg (fun _ => 0) r j s b h

/-- C3: the batch pipeline returns the merged records sorted by
overall_score descending, errored records keyed as -1 and therefore after
all scored records, and the sort is stable (a pair in input order whose keys
are already ordered, in particular equal, stays in that order); on the
spec's example batch with scores [55, 90, 90, 10] and the 90-records A
before B, the output order is [A, B, 55, 10]. -/
theorem batch_sorted_stable
    (scorer : String → String → List String → Except String ScoreBreakdown)
    (items : List ScoringItem) (hsc : OkNonneg scorer) :
    (process_bulk_async scorer items).Perm (mergedRecords scorer items) ∧
    (process_bulk_async scorer items).Pairwise
      (fun a b => sort_key b ≤ sort_key a) ∧
    (∀ a b : BatchRecord, [a, b].Sublist (mergedRecords scorer items) →
      sort_key b ≤ sort_key a →
      [a, b].Sublist (process_bulk_async scorer items)) ∧
    (process_bulk_async scorer items).Pairwise
      (fun a b => a.outcome.isErr = true → b.outcome.isErr = true) ∧
    (process_bulk_async exScorer exItems).map (fun rec => rec.item.fileName)
      = ["A", "B", "s55", "D10"] := by
  refine ⟨List.mergeSort_perm _ _, out_sorted scorer items, ?_,
    out_errs_last scorer items hsc, ?_⟩
  · intro a b hab hk
    exact List.pair_sublist_mergeSort descLE_trans descLE_total
      (by simpa [descLE] using hk) hab
  · norm_num [process_bulk_async, mergedRecords, itemOutcome, _process_single_sync,
      exScorer, exItems, constBreakdown, List.mergeSort, List.splitInTwo, List.splitAt,
      List.splitAt.go, List.merge, descLE, sort_key]

/-- Witness for C3: the spec's explicit ordering example, processed with the
explicit-score test double. -/
theorem batch_sorted_stable_witness :
    OkNonneg exScorer ∧
    ((process_bulk_async exScorer exItems).Perm (mergedRecords exScorer exItems) ∧
      (process_bulk_async exScorer exItems).Pairwise
        (fun a b => sort_key b ≤ sort_key a) ∧
      (∀ a b : BatchRecord, [a, b].Sublist (mergedRecords exScorer exItems) →
        sort_key b ≤ sort_key a →
        [a, b].Sublist (process_bulk_async exScorer exItems)) ∧
      (process_bulk_async exScorer exItems).Pairwise
        (fun a b => a.outcome.isErr = true → b.outcome.isErr = true) ∧
      (process_bulk_async exScorer exItems).map (fun rec => rec.item.fileName)
        = ["A", "B", "s55", "D10"]) :=
  ⟨exScorer_okNonneg, batch_sorted_stable exScorer exItems exScorer_okNonneg⟩

/-- C4: the batch returns exactly one record per input item; a record is
either scored or errored, never both; and when exactly one item's scoring
fails, the output is N records with the single errored record last and the
other N-1 scored. -/
theorem batch_error_isolation
    (scorer : String → String → List String → Except String ScoreBreakdown)
    (items : List ScoringItem) (hsc : OkNonneg scorer) :
    (process_bulk_async scorer items).length = items.length ∧
    (∀ rec ∈ process_bulk_async scorer items,
      ((∃ b, rec.outcome = Outcome.ok b) ∨ (∃ m, rec.outcome = Outcome.err m)) ∧
      ¬ ((∃ b, rec.outcome = Outcome.ok b) ∧ (∃ m, rec.outcome = Outcome.err m))) ∧
    ((items.countP (fun it => (itemOutcome scorer it).isErr)) = 1 →
      ∃ l e, process_bulk_async scorer items = l ++ [e] ∧
        e.outcome.isErr = true ∧ (∀ rec ∈ l, rec.outcome.isErr = false) ∧
        l.length = items.length - 1) := by
  have hlen : (process_bulk_async scorer items).length = items.length := by
    show (List.mergeSort _ _).length = _
    rw [List.length_mergeSort]
    unfold mergedRecords
    exact List.length_map _ _
  refine ⟨hlen, ?_, ?_⟩
  · intro rec hrec
    refine ⟨?_, ?_⟩
    · rcases ho : rec.outcome with b | m
      · exact Or.inl ⟨b, rfl⟩
      · exact Or.inr ⟨m, rfl⟩
    · rintro ⟨⟨b, hb⟩, ⟨m, hm⟩⟩
      rw [hb] at hm
      exact Outcome.noConfusion hm
  · intro hcount
    have hperm : (process_bulk_async scorer items).Perm (mergedRecords scorer items) :=
      List.mergeSort_perm _ _
    have hcnt : (process_bulk_async scorer items).countP
        (fun rec => rec.outcome.isErr) = 1 := by
      rw [hperm.countP_eq]
      unfold mergedRecords
      rw [List.countP_map]
      simpa [Function.comp] using hcount
    obtain ⟨l, e, heq, he, hl⟩ :=
      pairwise_count_one_split _ _ (out_errs_last scorer items hsc) hcnt
    refine ⟨l, e, heq, he, hl, ?_⟩
    rw [heq] at hlen
    simp at hlen
    omega

/-- Witness for C4: a two-item batch whose second item triggers the injected
scoring failure. -/
theorem batch_error_isolation_witness :
    OkNonneg failingScorer ∧
    ((process_bulk_async failingScorer witItems).length = witItems.length ∧
      (∀ rec ∈ process_bulk_async failingScorer witItems,
        ((∃ b, rec.outcome = Outcome.ok b) ∨ (∃ m, rec.outcome = Outcome.err m)) ∧
        ¬ ((∃ b, rec.outcome = Outcome.ok b) ∧
            (∃ m, rec.outcome = Outcome.err m))) ∧
      ((witItems.countP (fun it => (itemOutcome failingScorer it).isErr)) = 1 →
        ∃ l e, process_bulk_async failingScorer witItems = l ++ [e] ∧
          e.outcome.isErr = true ∧ (∀ rec ∈ l, rec.outcome.isErr = false) ∧
          l.length = witItems.length - 1)) :=
  ⟨failingScorer_okNonneg,
    batch_error_isolation failingScorer witItems failingScorer_okNonneg⟩

theorem fallback_congr (md5a md5b : String → ℕ) (r j : String)
    (s : List String) (h : md5a r = md5b r) :
    _fallback_score md5a r j s = _fallback_score md5b r j s := by
  unfold _fallback_score overallOf variance
  rw [h]

/-- C5: the Scoring Engine is deterministic — its output depends only on
the input triple and the digest value of the resume text — and so is the
batch pipeline: runs agreeing on the digest of every resume in the batch
produce identical output sequences. -/
theorem scoring_deterministic (md5a md5b : String → ℕ)
    (items : List ScoringItem)
    (h : ∀ it ∈ items, md5a it.resume_text = md5b it.resume_text) :
    process_bulk_async (fallbackScorer md5a) items
      = process_bulk_async (fallbackScorer md5b) items ∧
    ∀ r j s, md5a r = md5b r →
      _fallback_score md5a r j s = _fallback_score md5b r j s := by
  constructor
  · unfold process_bulk_async
    congr 1
    unfold mergedRecords
    apply List.map_congr_left
    intro it hit
    have hmd := h it hit
    unfold itemOutcome _process_single_sync fallbackScorer
    rw [fallback_congr md5a md5b _ _ _ hmd]
  · intro r j s hr
    exact fallback_congr md5a md5b r j s hr

/-- Witness for C5: the two runs with the same stubbed digest on the
two-item batch. -/
theorem scoring_deterministic_witness :
    (∀ it ∈ witItems,
      (fun _ : String => (0 : ℕ)) it.resume_text
        = (fun _ : String => (0 : ℕ)) it.resume_text) ∧
    (process_bulk_async (fallbackScorer (fun _ => 0)) witItems
        = process_bulk_async (fallbackScorer (fun _ => 0)) witItems ∧
      ∀ r j s, (fun _ : String => (0 : ℕ)) r = (fun _ : String => (0 : ℕ)) r →
        _fallback_score (fun _ => 0) r j s = _fallback_score (fun _ => 0) r j s) :=
  ⟨fun _ _ => rfl,
    scoring_deterministic (fun _ => 0) (fun _ => 0) witItems (fun _ _ => rfl)⟩

/-- C8: every passthrough field of an input item reappears unchanged on that
item's output record: the output is a permutation of the records pairing
each input item, intact, with its outcome, and each output record's outcome
is the one computed for the very item it carries. -/
theorem metadata_roundtrip
    (scorer : String → String → List String → Except String ScoreBreakdown)
    (items : List ScoringItem) :
    (process_bulk_async scorer items).Perm
      (items.map (fun it => { item := it, outcome := itemOutcome scorer it })) ∧
    ∀ rec ∈ process_bulk_async scorer items,
      rec.item ∈ items ∧ rec.outcome = itemOutcome scorer rec.item := by
  constructor
  · exact List.mergeSort_perm _ _
  · intro rec hrec
    have hm : rec ∈ mergedRecords scorer items := List.mem_mergeSort.mp hrec
    obtain ⟨it, hit, rfl⟩ := List.mem_map.mp hm
    exact ⟨hit, rfl⟩

/-- Witness for C10: the concrete input of the claim, resumeText = "" and
requiredSkills = [""], with the digest stubbed to the zero function. -/
theorem empty_skill_always_matched_witness :
    "" ∈ ([""] : List String) ∧
    ("" ∈ (_fallback_score (fun _ => 0) "" "" [""]).matched_skills ∧
      1 ≤ matched_count "" [""] ∧
      0 < (_fallback_score (fun _ => 0) "" "" [""]).skills_score) :=
  ⟨by decide, empty_skill_always_matched (fun _ => 0) "" "" [""] (by decide)⟩

end AsyncPipeline
